import Mathlib

/-
Verification development for the ValidFrame repository.

The embedding models the per-column validation pipeline of
src/src/vframe/basemodel.py together with its helper modules
src/src/vframe/_column_validation.py, src/src/vrame/column_types.py,
src/src/vrame/_column_types_validation.py and src/vrame/error.py.
Cells of a pandas column are modelled by the inductive `PyVal`; the text of a
string cell is modelled by `PyText`, classified the way the CPython `eval`
builtin treats it.  Machine floats are modelled by `PyFloat` (an extended
rational with a NaN point); the development only relies on order comparisons
of floats, never on rounding.
-/

namespace ValidFrame

/-- Model of a Python float: the IEEE special values plus a finite value
modelled as a rational.  Only ordering matters in the validated code. -/
inductive PyFloat where
  | negInf : PyFloat
  | fin : ℚ → PyFloat
  | posInf : PyFloat
  | nan : PyFloat
deriving DecidableEq

/-- Model of the text of a Python string, classified the way the CPython
`eval` builtin treats it (src/src/vframe/_column_validation.py, `_try_eval`):
literal forms evaluate to the corresponding value, a bare identifier that is
not bound in the evaluating module raises NameError, and statement text such
as "import os" raises SyntaxError. -/
inductive PyText where
  | intLit : ℤ → PyText
  | floatLit : ℚ → PyText
  | boolLit : Bool → PyText
  | noneLit : PyText
  | strLit : PyText → PyText
  | listLit : List PyText → PyText
  | tupleLit : List PyText → PyText
  | setLit : List PyText → PyText
  | dictLit : List PyText → List PyText → PyText
  | ident : String → PyText
  | stmt : String → PyText

/-- Model of a Python cell value as stored in an object-dtype pandas column.
A dict is modelled by its key list and value list; a datetime by an integer
timestamp (pandas Timestamp, ordered). -/
inductive PyVal where
  | vInt : ℤ → PyVal
  | vFloat : PyFloat → PyVal
  | vBool : Bool → PyVal
  | vNone : PyVal
  | vStr : PyText → PyVal
  | vDatetime : ℤ → PyVal
  | vList : List PyVal → PyVal
  | vTuple : List PyVal → PyVal
  | vSet : List PyVal → PyVal
  | vDict : List PyVal → List PyVal → PyVal

/-- A Python number: either an int or a float.  Used for column minima and
maxima and for the numeric bounds stored on field types. -/
inductive PyNum where
  | int : ℤ → PyNum
  | float : PyFloat → PyNum
deriving DecidableEq

/-- Which bound of a range was violated. -/
inductive Bound where
  | lower : Bound
  | upper : Bound
deriving DecidableEq

/-- Model of the exceptions the source can raise.  Constructors carry the
data interpolated into the corresponding Python message:
* `nullValueError c` — ValueError "Null values found in column c"
  (basemodel.py `_check_null`);
* `configError a k` — ValueError "Argument a must be k"
  (src/src/vrame/_column_types_validation.py);
* `parseError c` — vrame.error.ParseError naming column c
  (basemodel.py `_parse`);
* `typeErrorNotAll c k` — TypeError "Not all values in column c are k"
  (basemodel.py `_check_definition` / `_check_range`);
* `outOfBoundRange c b bound extreme` — vrame.error.OutOfBoundError from
  `_check_range`, naming the column, the violated bound and the extreme value;
* `outOfBoundItems b bound` / `outOfBoundLen b bound` — OutOfBoundError from
  `_check_items` (the source messages there do not name the column);
* `vectorizeError` — the ValueError np.vectorize raises on size-0 input
  ("cannot call vectorize on size 0 inputs unless otypes is set");
* `nameError` — the Python NameError raised by eval on an unbound
  identifier;
* `evalStatementError` — the Python SyntaxError raised by eval on statement
  text such as "import os";
* `dateParseError` — the error pd.to_datetime raises on unparseable input;
* `cmpTypeError` — the TypeError raised by an unsupported comparison or len;
* `keyError c` — the KeyError raised by frame.loc on a missing column. -/
inductive PyErr where
  | nullValueError : String → PyErr
  | configError : String → String → PyErr
  | parseError : String → PyErr
  | typeErrorNotAll : String → String → PyErr
  | outOfBoundRange : String → Bound → PyNum → PyNum → PyErr
  | outOfBoundItems : Bound → PyNum → PyErr
  | outOfBoundLen : Bound → PyNum → PyErr
  | vectorizeError : PyErr
  | nameError : PyErr
  | evalStatementError : PyErr
  | dateParseError : PyErr
  | cmpTypeError : PyErr
  | keyError : String → PyErr
deriving DecidableEq

/-- The Python classes against which `isinstance` is called in the source. -/
inductive PyType where
  | int : PyType
  | float : PyType
  | bool : PyType
  | dt : PyType
  | list : PyType
  | tuple : PyType
  | dict : PyType
  | set : PyType
  | str : PyType
deriving DecidableEq

/-- Python `isinstance` on the modelled values.  Note that in Python `bool`
is a subclass of `int`, so a bool cell is an instance of int. -/
def isinst : PyVal → PyType → Bool
  | .vInt _, .int => true
  | .vBool _, .int => true
  | .vBool _, .bool => true
  | .vFloat _, .float => true
  | .vDatetime _, .dt => true
  | .vList _, .list => true
  | .vTuple _, .tuple => true
  | .vDict _ _, .dict => true
  | .vSet _, .set => true
  | .vStr _, .str => true
  | _, _ => false

/-- `pd.isnull` on a cell: None and float NaN are null. -/
def isNull : PyVal → Bool
  | .vNone => true
  | .vFloat .nan => true
  | _ => false

/-- Is the number the float NaN? -/
def numIsNan : PyNum → Bool
  | .float .nan => true
  | _ => false

/-- Comparison key: the class (-1 for -inf, 0 finite, 1 for +inf) and the
finite value.  NaN is handled before this key is consulted. -/
def numKey : PyNum → ℤ × ℚ
  | .int n => (0, (n : ℚ))
  | .float (.fin q) => (0, q)
  | .float .negInf => (-1, 0)
  | .float .posInf => (1, 0)
  | .float .nan => (2, 0)

/-- Python `<=` on numbers: any comparison involving NaN is false;
otherwise ints and floats compare by value, with the infinities at the
ends. -/
def numLe (a b : PyNum) : Bool :=
  if numIsNan a ∨ numIsNan b then false
  else decide ((numKey a).1 < (numKey b).1 ∨
    ((numKey a).1 = (numKey b).1 ∧ (numKey a).2 ≤ (numKey b).2))

/-- Conversion of a numeric cell to a `PyNum` (bools count as 0/1, as in
Python).  Non-numeric cells are unreachable behind the `_vec_isnumeric`
guard; they map to NaN. -/
def toNum : PyVal → PyNum
  | .vInt n => .int n
  | .vBool b => .int (if b then 1 else 0)
  | .vFloat f => .float f
  | _ => .float .nan

/-- Python `arg < 0`, as evaluated in `_validate_positive_int`: numbers
(including bools) compare by value, anything else raises TypeError. -/
def ltZeroPy : PyVal → Except PyErr Bool
  | .vInt n => .ok (decide (n < 0))
  | .vBool _ => .ok false
  | .vFloat f => .ok (numLe (.float f) (.int 0) && !(numLe (.int 0) (.float f)))
  | _ => .error .cmpTypeError

/-- Extract the Bool payload of a validated `nullable` argument. -/
def asBool : PyVal → Bool
  | .vBool b => b
  | _ => false

/-! ## Constructor-argument validators (src/src/vrame/_column_types_validation.py) -/

/-- `_validate_int`: raises ValueError "Argument arg must be int." unless the
argument is a Python int (a bool also passes, being an int subclass). -/
def validate_int (arg : PyVal) (argStr : String) : Except PyErr Unit :=
  if isinst arg .int then .ok () else .error (.configError argStr "int")

/-- `_validate_float`: raises unless the argument is a Python float
(an int does not pass). -/
def validate_float (arg : PyVal) (argStr : String) : Except PyErr Unit :=
  if isinst arg .float then .ok () else .error (.configError argStr "float")

/-- `_validate_bool`: raises unless the argument is a Python bool. -/
def validate_bool (arg : PyVal) (argStr : String) : Except PyErr Unit :=
  if isinst arg .bool then .ok () else .error (.configError argStr "bool")

/-- `_validate_datetime`: accepts datetime instances or strings that
dateutil parses.  The text model carries no datetime-like string class, so
only datetime instances are accepted here; every claim below constructs
Datetime bounds from datetime values. -/
def validate_datetime (arg : PyVal) (argStr : String) : Except PyErr Unit :=
  match arg with
  | .vDatetime _ => .ok ()
  | _ => .error (.configError argStr "datetime or datetime-like string")

/-- `_validate_positive_int`.  The source condition is
`if not isinstance(arg, int) and arg < 0: raise ValueError(...)`:
an int short-circuits the conjunction (so a negative int passes), and a
non-int is compared with 0, which for non-numeric arguments raises
TypeError. -/
def validate_positive_int (arg : PyVal) (argStr : String) : Except PyErr Unit :=
  if isinst arg .int then .ok ()
  else do
    let neg ← ltZeroPy arg
    if neg then .error (.configError argStr "positive int") else .ok ()

/-! ## Field types (src/src/vrame/column_types.py)

basemodel.py imports its field classes from a sibling `column_types` module
that is not present in the checkout; src/src/vrame/column_types.py is the
surviving generation of that module (the attribute names used by
basemodel.py — nullable, skipna, lower, upper, allow_float, allow_int,
min_items, max_items, min_length, max_length — all match it). -/

/-- Attributes of an `Integer` field. -/
structure IntegerField where
  lower : PyNum
  upper : PyNum
  nullable : Bool
  skipna : Bool
  allow_float : Bool
deriving DecidableEq

/-- Attributes of a `Float` field. -/
structure FloatField where
  lower : PyNum
  upper : PyNum
  nullable : Bool
  skipna : Bool
  allow_int : Bool
deriving DecidableEq

/-- Attributes of a `Boolean` field. -/
structure BooleanField where
  nullable : Bool
  skipna : Bool
deriving DecidableEq

/-- Attributes of a `String` field.  The length bounds are stored as the
numbers that survived `_validate_positive_int`. -/
structure StringField where
  min_length : PyNum
  max_length : PyNum
  nullable : Bool
  skipna : Bool
deriving DecidableEq

/-- Attributes of a `Datetime` field.  The bounds are stored unchecked
beyond `_validate_datetime` and are never consulted by any pipeline stage. -/
structure DatetimeField where
  lower : PyVal
  upper : PyVal
  nullable : Bool
  skipna : Bool
  yearfirst : Bool

/-- Shared attributes of the `List`, `Tuple`, `Set` and `Dictionary` fields,
whose constructors are textually identical in the source. -/
structure ItemsField where
  min_items : PyNum
  max_items : PyNum
  nullable : Bool
  skipna : Bool
deriving DecidableEq

/-- Attributes of an `Object` field. -/
structure ObjectField where
  nullable : Bool
  skipna : Bool
deriving DecidableEq

/-- `Integer.__init__`: validates lower, upper and nullable, then stores the
attributes.  The Python defaults are `lower=-np.inf, upper=np.inf,
nullable=True, skipna=True, allow_float=False`; a call with the bounds
omitted is therefore `IntegerField.init (.vFloat .negInf) (.vFloat .posInf)
(.vBool true) true false`. -/
def IntegerField.init (lower upper nullable : PyVal) (skipna allow_float : Bool) :
    Except PyErr IntegerField := do
  validate_int lower "lower"
  validate_int upper "upper"
  validate_bool nullable "nullable"
  .ok { lower := toNum lower, upper := toNum upper, nullable := asBool nullable,
        skipna := skipna, allow_float := allow_float }

/-- `Float.__init__` (defaults: `lower=-np.inf, upper=np.inf, nullable=True,
skipna=True, allow_int=False`). -/
def FloatField.init (lower upper nullable : PyVal) (skipna allow_int : Bool) :
    Except PyErr FloatField := do
  validate_float lower "lower"
  validate_float upper "upper"
  validate_bool nullable "nullable"
  .ok { lower := toNum lower, upper := toNum upper, nullable := asBool nullable,
        skipna := skipna, allow_int := allow_int }

/-- `Boolean.__init__`. -/
def BooleanField.init (nullable : PyVal) (skipna : Bool) :
    Except PyErr BooleanField := do
  validate_bool nullable "nullable"
  .ok { nullable := asBool nullable, skipna := skipna }

/-- `String.__init__`: min_length and max_length are required arguments,
checked by `_validate_positive_int` before the nullable flag. -/
def StringField.init (min_length max_length nullable : PyVal) (skipna : Bool) :
    Except PyErr StringField := do
  validate_positive_int min_length "min_length"
  validate_positive_int max_length "max_length"
  validate_bool nullable "nullable"
  .ok { min_length := toNum min_length, max_length := toNum max_length,
        nullable := asBool nullable, skipna := skipna }

/-- `Datetime.__init__`: lower and upper are required. -/
def DatetimeField.init (lower upper nullable : PyVal) (skipna yearfirst : Bool) :
    Except PyErr DatetimeField := do
  validate_datetime lower "lower"
  validate_datetime upper "upper"
  validate_bool nullable "nullable"
  .ok { lower := lower, upper := upper, nullable := asBool nullable,
        skipna := skipna, yearfirst := yearfirst }

/-- The shared `__init__` of `List`, `Tuple`, `Set` and `Dictionary`
(defaults: `min_items=0, max_items=np.inf, nullable=True, skipna=True`):
the nullable flag is validated first, then the two item bounds. -/
def ItemsField.init (min_items max_items nullable : PyVal) (skipna : Bool) :
    Except PyErr ItemsField := do
  validate_bool nullable "nullable"
  validate_positive_int min_items "min_items"
  validate_positive_int max_items "max_items"
  .ok { min_items := toNum min_items, max_items := toNum max_items,
        nullable := asBool nullable, skipna := skipna }

/-- `Object.__init__`. -/
def ObjectField.init (nullable : PyVal) (skipna : Bool) :
    Except PyErr ObjectField := do
  validate_bool nullable "nullable"
  .ok { nullable := asBool nullable, skipna := skipna }

/-- The closed union of field types (`Fields` in basemodel.py). -/
inductive Field where
  | integer : IntegerField → Field
  | float : FloatField → Field
  | boolean : BooleanField → Field
  | datetime : DatetimeField → Field
  | string : StringField → Field
  | list : ItemsField → Field
  | tuple : ItemsField → Field
  | set : ItemsField → Field
  | dictionary : ItemsField → Field
  | object : ObjectField → Field

/-- The `nullable` attribute common to every field type. -/
def fieldNullable : Field → Bool
  | .integer g => g.nullable
  | .float g => g.nullable
  | .boolean g => g.nullable
  | .datetime g => g.nullable
  | .string g => g.nullable
  | .list g => g.nullable
  | .tuple g => g.nullable
  | .set g => g.nullable
  | .dictionary g => g.nullable
  | .object g => g.nullable

/-! ## The eval model (src/src/vframe/_column_validation.py) -/

mutual
/-- Semantics of the CPython `eval` builtin on the modelled text classes:
literals evaluate to the corresponding native value (elements of a display
are evaluated left to right and the first exception propagates), an unbound
identifier raises NameError, and statement text raises SyntaxError. -/
def evalText : PyText → Except PyErr PyVal
  | .intLit n => .ok (.vInt n)
  | .floatLit q => .ok (.vFloat (.fin q))
  | .boolLit b => .ok (.vBool b)
  | .noneLit => .ok .vNone
  | .strLit s => .ok (.vStr s)
  | .listLit xs => do
    let vs ← evalTexts xs
    .ok (.vList vs)
  | .tupleLit xs => do
    let vs ← evalTexts xs
    .ok (.vTuple vs)
  | .setLit xs => do
    let vs ← evalTexts xs
    .ok (.vSet vs)
  | .dictLit ks vs => do
    let kvals ← evalTexts ks
    let vvals ← evalTexts vs
    .ok (.vDict kvals vvals)
  | .ident _ => .error .nameError
  | .stmt _ => .error .evalStatementError

/-- Evaluate the element texts of a display, left to right. -/
def evalTexts : List PyText → Except PyErr (List PyVal)
  | [] => .ok []
  | t :: ts => do
    let v ← evalText t
    let vs ← evalTexts ts
    .ok (v :: vs)
end

/-- `_try_eval`: `eval(arg)` with TypeError caught and the argument returned
unchanged.  `eval` raises TypeError exactly when its argument is not text,
so non-string cells pass through unchanged and string cells are evaluated
(any NameError or SyntaxError propagates to the caller). -/
def tryEval : PyVal → Except PyErr PyVal
  | .vStr t => evalText t
  | v => .ok v

mutual
/-- Python `str()` of a cell value, as classified text: the model behind
`column.astype(str)`.  A string renders to itself; an int, float, bool or
None renders to its literal form; the non-finite floats render to the
identifiers "inf"/"-inf"/"nan"; a datetime renders to statement-shaped text
(its repr is not a Python expression); displays render element-wise. -/
def textOf : PyVal → PyText
  | .vInt n => .intLit n
  | .vFloat (.fin q) => .floatLit q
  | .vFloat .posInf => .ident "inf"
  | .vFloat .negInf => .ident "-inf"
  | .vFloat .nan => .ident "nan"
  | .vBool b => .boolLit b
  | .vNone => .noneLit
  | .vStr t => t
  | .vDatetime t => .stmt (toString t)
  | .vList xs => .listLit (textOfs xs)
  | .vTuple xs => .tupleLit (textOfs xs)
  | .vSet xs => .setLit (textOfs xs)
  | .vDict ks vs => .dictLit (textOfs ks) (textOfs vs)

/-- `str()` of each element of a display. -/
def textOfs : List PyVal → List PyText
  | [] => []
  | v :: vs => textOf v :: textOfs vs
end

/-- One cell of `column.astype(str)`. -/
def strCast (v : PyVal) : PyVal := .vStr (textOf v)

/-- One cell of `pd.to_datetime(column)`: datetimes pass through, ints are
interpreted as epoch offsets, anything else fails (the text model carries no
datetime-like string class, and no claim parses one). -/
def toDatetimeCell : PyVal → Except PyErr PyVal
  | .vDatetime t => .ok (.vDatetime t)
  | .vInt n => .ok (.vDatetime n)
  | _ => .error .dateParseError

/-- `pd.Series.apply`: the function is applied to the cells in order and the
first exception propagates. -/
def mapCells (f : PyVal → Except PyErr PyVal) : List PyVal → Except PyErr (List PyVal)
  | [] => .ok []
  | v :: vs => do
    let w ← f v
    let ws ← mapCells f vs
    .ok (w :: ws)

/-- `_vec_isinstance`: np.vectorize(isinstance) raises ValueError on a
size-0 input; otherwise the source compares the count of matches with the
length, i.e. tests that every cell is an instance. -/
def vec_isinstance (c : List PyVal) (t : PyType) : Except PyErr Bool :=
  if c.isEmpty then .error .vectorizeError
  else .ok (c.all (isinst · t))

/-- `_vec_isnumeric`: every cell is an int or a float (np.vectorize again
raises on a size-0 input). -/
def vec_isnumeric (c : List PyVal) : Except PyErr Bool :=
  if c.isEmpty then .error .vectorizeError
  else .ok (c.all fun v => isinst v .int || isinst v .float)

/-- `vec_is_datetime`: every cell is a datetime instance. -/
def vec_is_datetime (c : List PyVal) : Except PyErr Bool :=
  if c.isEmpty then .error .vectorizeError
  else .ok (c.all (isinst · .dt))

mutual
/-- Length of the canonical rendering of the modelled text: the model of
Python `len` on a string cell.  Scalar literals contribute the length of
their literal form, string literals two quote characters, displays two
brackets and two characters per separator. -/
def textLen : PyText → ℤ
  | .intLit n => (toString n).length
  | .floatLit q => (toString q).length
  | .boolLit b => if b then 4 else 5
  | .noneLit => 4
  | .strLit s => textLen s + 2
  | .ident s => s.length
  | .stmt s => s.length
  | .listLit xs => 2 + textLenSeq xs
  | .tupleLit xs => 2 + textLenSeq xs
  | .setLit xs => 2 + textLenSeq xs
  | .dictLit ks vs => 2 + textLenSeq ks + 2 * (ks.length : ℤ) + textLenSeq vs

/-- Sum of element rendering lengths plus two characters per separator. -/
def textLenSeq : List PyText → ℤ
  | [] => 0
  | [t] => textLen t
  | t :: rest => textLen t + 2 + textLenSeq rest
end

/-- Python `len` of one cell: sized containers report their element count
(a dict the number of keys, a string its character count); `len` of a
number, bool, None or datetime raises TypeError. -/
def pyLen : PyVal → Except PyErr ℤ
  | .vList xs => .ok xs.length
  | .vTuple xs => .ok xs.length
  | .vSet xs => .ok xs.length
  | .vDict ks _ => .ok ks.length
  | .vStr t => .ok (textLen t)
  | _ => .error .cmpTypeError

/-- Collect the results of a per-cell computation, left to right. -/
def mapLens : List PyVal → Except PyErr (List ℤ)
  | [] => .ok []
  | v :: vs => do
    let n ← pyLen v
    let ns ← mapLens vs
    .ok (n :: ns)

/-- `_vec_len`: np.vectorize(len), raising ValueError on a size-0 input. -/
def vec_len (c : List PyVal) : Except PyErr (List ℤ) :=
  if c.isEmpty then .error .vectorizeError
  else mapLens c

/-! ## Pipeline stages (src/src/vframe/basemodel.py) -/

/-- `BaseModel._check_null`: raises ValueError "Null values found in column
name" when the field is not nullable and `pd.isnull(column).sum() > 0`.
The column itself is not touched. -/
def checkNull (field : Field) (c : List PyVal) (name : String) : Except PyErr Unit :=
  if ¬ fieldNullable field ∧ c.countP isNull > 0 then
    .error (.nullValueError name)
  else .ok ()

/-- The branch dispatch of `BaseModel._parse` before its except clause:
Integer, Float, Boolean and List and then Tuple, Dictionary and Set apply
`_try_eval` to every cell; Datetime applies `pd.to_datetime`; String applies
`astype(str)`; Object falls through unchanged. -/
def parseBody (field : Field) (c : List PyVal) : Except PyErr (List PyVal) :=
  match field with
  | .integer _ | .float _ | .boolean _ | .list _ => mapCells tryEval c
  | .tuple _ | .dictionary _ | .set _ => mapCells tryEval c
  | .datetime _ => mapCells toDatetimeCell c
  | .string _ => .ok (c.map strCast)
  | .object _ => .ok c

/-- `BaseModel._parse`: the dispatch above wrapped in
`except (NameError, pd.errors.UndefinedVariableError): raise ParseError`.
Only a NameError becomes a ParseError; every other exception (such as the
SyntaxError eval raises on statement text) propagates unchanged. -/
def parseColumn (field : Field) (c : List PyVal) (name : String) :
    Except PyErr (List PyVal) :=
  match parseBody field c with
  | .error .nameError => .error (.parseError name)
  | r => r

/-- `BaseModel._check_definition`: one isinstance-gated check per field
class.  For Integer the TypeError fires only when additionally
`field.allow_float` is true, and symmetrically for Float with
`field.allow_int`; in each numeric branch `_vec_isinstance` is evaluated
before the flag, so its size-0 ValueError precedes the flag test.  String
and Object have no check. -/
def checkDefinition (field : Field) (c : List PyVal) (name : String) :
    Except PyErr Unit :=
  match field with
  | .integer g => do
    let allInt ← vec_isinstance c .int
    if ¬ allInt ∧ g.allow_float then .error (.typeErrorNotAll name "integer")
    else .ok ()
  | .float g => do
    let allFloat ← vec_isinstance c .float
    if ¬ allFloat ∧ g.allow_int then .error (.typeErrorNotAll name "float")
    else .ok ()
  | .boolean _ => do
    let allBool ← vec_isinstance c .bool
    if ¬ allBool then .error (.typeErrorNotAll name "boolean") else .ok ()
  | .datetime _ => do
    let allDt ← vec_isinstance c .dt
    if ¬ allDt then .error (.typeErrorNotAll name "datetime") else .ok ()
  | .list _ => do
    let allList ← vec_isinstance c .list
    if ¬ allList then .error (.typeErrorNotAll name "list") else .ok ()
  | .tuple _ => do
    let allTuple ← vec_isinstance c .tuple
    if ¬ allTuple then .error (.typeErrorNotAll name "tuple") else .ok ()
  | .dictionary _ => do
    let allDict ← vec_isinstance c .dict
    if ¬ allDict then .error (.typeErrorNotAll name "dict") else .ok ()
  | .set _ => do
    let allSet ← vec_isinstance c .set
    if ¬ allSet then .error (.typeErrorNotAll name "set") else .ok ()
  | .string _ => .ok ()
  | .object _ => .ok ()

/-- Left fold picking the smaller of two numbers (the accumulator wins
ties); NaN never reaches it. -/
def foldMin (m : PyNum) : List PyNum → PyNum
  | [] => m
  | x :: xs => foldMin (if numLe m x then m else x) xs

/-- Left fold picking the larger of two numbers. -/
def foldMax (m : PyNum) : List PyNum → PyNum
  | [] => m
  | x :: xs => foldMax (if numLe x m then m else x) xs

/-- `column.min(skipna=...)` on an all-numeric object column: with skipna
the NaN cells are dropped; without it any NaN makes the result NaN; the
minimum of an empty selection is NaN. -/
def colMin (c : List PyVal) (skipna : Bool) : PyNum :=
  let nums := c.map toNum
  let nums := if skipna then nums.filter (fun x => !(numIsNan x)) else nums
  if nums.any numIsNan then .float .nan
  else
    match nums with
    | [] => .float .nan
    | x :: xs => foldMin x xs

/-- `column.max(skipna=...)`, dually. -/
def colMax (c : List PyVal) (skipna : Bool) : PyNum :=
  let nums := c.map toNum
  let nums := if skipna then nums.filter (fun x => !(numIsNan x)) else nums
  if nums.any numIsNan then .float .nan
  else
    match nums with
    | [] => .float .nan
    | x :: xs => foldMax x xs

/-- The body of the `isinstance(field, Integer) or isinstance(field, Float)`
branch of `BaseModel._check_range`: a TypeError unless every cell is
numeric, then the column minimum and maximum (honouring the field's skipna
flag) are compared against the bounds, the lower bound first. -/
def checkRangeNumeric (lower upper : PyNum) (skipna : Bool) (c : List PyVal)
    (name : String) : Except PyErr Unit := do
  let isNumeric ← vec_isnumeric c
  if ¬ isNumeric then .error (.typeErrorNotAll name "numeric")
  else
    let mn := colMin c skipna
    let mx := colMax c skipna
    if ¬ numLe lower mn then .error (.outOfBoundRange name .lower lower mn)
    else if ¬ numLe mx upper then .error (.outOfBoundRange name .upper upper mx)
    else .ok ()

/-- `BaseModel._check_range`: the shared numeric body for Integer and Float;
for Datetime only a TypeError check that every cell is a datetime (the
declared datetime bounds are never compared); no check otherwise. -/
def checkRange (field : Field) (c : List PyVal) (name : String) :
    Except PyErr Unit :=
  match field with
  | .integer g => checkRangeNumeric g.lower g.upper g.skipna c name
  | .float g => checkRangeNumeric g.lower g.upper g.skipna c name
  | .datetime _ => do
    let allDt ← vec_is_datetime c
    if ¬ allDt then .error (.typeErrorNotAll name "datetime") else .ok ()
  | _ => .ok ()

/-- `column.str.len()` of one cell: the length for a string, NaN for any
other cell (the pandas str accessor yields NaN off-type, and a comparison
with NaN is false). -/
def strLenCell : PyVal → Option ℤ
  | .vStr t => some (textLen t)
  | _ => none

/-- `BaseModel._check_items`: for List, Tuple, Set and Dictionary every
per-cell item count must lie within min_items and max_items; for String
every per-cell string length must lie within min_length and max_length; no
check otherwise.  Both numpy comparisons are evaluated before either bound
is reported, the lower bound first; the source messages here do not name
the column. -/
def checkItems (field : Field) (c : List PyVal) : Except PyErr Unit :=
  match field with
  | .list g | .tuple g | .set g | .dictionary g => do
    let lens ← vec_len c
    if ¬ lens.all (fun n => numLe g.min_items (.int n)) then
      .error (.outOfBoundItems .lower g.min_items)
    else if ¬ lens.all (fun n => numLe (.int n) g.max_items) then
      .error (.outOfBoundItems .upper g.max_items)
    else .ok ()
  | .string g =>
    let lens := c.map strLenCell
    if ¬ lens.all (fun o => o.elim false fun n => numLe g.min_length (.int n)) then
      .error (.outOfBoundLen .lower g.min_length)
    else if ¬ lens.all (fun o => o.elim false fun n => numLe (.int n) g.max_length) then
      .error (.outOfBoundLen .upper g.max_length)
    else .ok ()
  | _ => .ok ()

/-! ## Orchestration (BaseModel._validate / BaseModel.validate) -/

/-- A pandas DataFrame, modelled as its ordered list of named columns. -/
abbrev Table := List (String × List PyVal)

/-- `frame.loc[:, name]`: the first column of that name, KeyError if
absent. -/
def frameLoc (frame : Table) (name : String) : Except PyErr (List PyVal) :=
  match frame.find? (fun p => p.1 == name) with
  | some p => .ok p.2
  | none => .error (.keyError name)

/-- `BaseModel._validate`, exactly as written in the source: null check,
parse, then the definition check twice.  The range and item checks are
never invoked from here. -/
def validateOne (frame : Table) (field : Field) (name : String) :
    Except PyErr (List PyVal) := do
  let column ← frameLoc frame name
  checkNull field column name
  let column ← parseColumn field column name
  checkDefinition field column name
  checkDefinition field column name
  .ok column

/-- A `BaseModel` instance: the frame, the ordered field declarations
(`self.field_type`, the class dict in declaration order) and the joblib
parallelism degree. -/
structure Model where
  frame : Table
  field_type : List (String × Field)
  n_jobs : ℤ

/-- Execute pure tasks in an arbitrary completion order: each index of the
schedule runs the corresponding task and records its result under that
index. -/
def runSchedule (sched : List ℕ) (tasks : List α) : List (ℕ × α) :=
  sched.filterMap fun i => (tasks[i]?).map fun t => (i, t)

/-- Reassemble results by submission index, the way joblib `Parallel`
returns its outputs: index order, not completion order. -/
def gatherInOrder (n : ℕ) (done : List (ℕ × α)) : List α :=
  (List.range n).filterMap fun i => (done.find? (fun p => p.1 == i)).map Prod.snd

/-- The joblib `Parallel` model: run the tasks in an arbitrary completion
schedule, then return the results in submission order. -/
def parallelCompute (sched : List ℕ) (tasks : List α) : List α :=
  gatherInOrder tasks.length (runSchedule sched tasks)

/-- Join the per-column outcomes: the first failure in the gathered order
propagates (the source re-raises the worker's exception; with at most one
failing column this is exact, and every theorem below relies on it only in
the all-success or single-column cases). -/
def collectResults : List (Except PyErr α) → Except PyErr (List α)
  | [] => .ok []
  | .ok a :: rs => (collectResults rs).map (a :: ·)
  | .error e :: _ => .error e

/-- `BaseModel.validate`: one `_validate` task per declared field, dispatched
to the worker pool, results gathered in submission order, and the coerced
columns concatenated into a frame in that same order (`pd.concat(columns,
axis=1)`, each series keeping its column name).  The completion schedule is
an explicit parameter so that order-independence can be stated. -/
def validate (m : Model) (sched : List ℕ) : Except PyErr Table :=
  match collectResults (parallelCompute sched
      (m.field_type.map fun p => validateOne m.frame p.2 p.1)) with
  | .error e => .error e
  | .ok cols => .ok ((m.field_type.map Prod.fst).zip cols)

/-- The spec's documented error taxonomy (ConfigurationError,
SchemaMismatchError, NullValueError, ParseError, the TypeError kind and
OutOfBoundError).  The eval SyntaxError, the np.vectorize size-0 ValueError,
the uncaught pd.to_datetime error and the comparison TypeError fall outside
it. -/
def inTaxonomy : PyErr → Bool
  | .nullValueError _ => true
  | .configError _ _ => true
  | .parseError _ => true
  | .typeErrorNotAll _ _ => true
  | .outOfBoundRange _ _ _ _ => true
  | .outOfBoundItems _ _ => true
  | .outOfBoundLen _ _ => true
  | .keyError _ => true
  | _ => false

/-- The field types whose `_check_definition` branch calls
`_vec_isinstance` (every type except String and Object). -/
def reachesTypeCheck : Field → Bool
  | .string _ => false
  | .object _ => false
  | _ => true

/-- The field types whose `_parse` branch applies `_try_eval` to every cell
(every type except Datetime, String and Object). -/
def isEvalParsed : Field → Bool
  | .integer _ | .float _ | .boolean _ | .list _ => true
  | .tuple _ | .dictionary _ | .set _ => true
  | _ => false

/-- Is the cell a Python str? -/
def isStrCell : PyVal → Bool
  | .vStr _ => true
  | _ => false

/-- The numeric data `_check_range` reads off an Integer or Float field. -/
def numFieldBounds : Field → Option (PyNum × PyNum × Bool)
  | .integer g => some (g.lower, g.upper, g.skipna)
  | .float g => some (g.lower, g.upper, g.skipna)
  | _ => none

/-- Did the computation finish without an exception? -/
def exOk : Except PyErr α → Bool
  | .ok _ => true
  | .error _ => false

end ValidFrame

namespace ValidFrame

/-! ## Claim theorems -/

/-- C1 (code bug): `BaseModel._validate` does not apply the five intended
stages.  On the claim's own example — an Integer field with lower 0 and
upper 10 and the column [0, 5, 11] — the pipeline as written (null check,
parse, definition check twice) returns the column unchanged, while the
fully implemented range-check stage, which `_validate` never invokes,
rejects that very column with the OutOfBoundError the claim requires. -/
theorem validate_skips_range_and_item_stages :
    validateOne [("c", [.vInt 0, .vInt 5, .vInt 11])]
      (.integer ⟨.int 0, .int 10, true, true, false⟩) "c" =
      .ok [.vInt 0, .vInt 5, .vInt 11]
    ∧ checkRange (.integer ⟨.int 0, .int 10, true, true, false⟩)
      [.vInt 0, .vInt 5, .vInt 11] "c" =
      .error (.outOfBoundRange "c" .upper (.int 10) (.int 11)) :=
  ⟨rfl, rfl⟩

/-- C2 (code bug): the parse stage evaluates cell text with the Python
`eval` builtin and catches only NameError.  Statement text such as
"import os" therefore escapes as an uncaught SyntaxError instead of the
claimed ParseError (only unbound-identifier text is converted to
ParseError), while the well-formed literal "[1, 2, 3]" parses to a
3-element integer list. -/
theorem parse_statement_text_escapes_as_syntax_error :
    parseColumn (.list ⟨.int 0, .float .posInf, true, true⟩)
      [.vStr (.stmt "import os")] "c" = .error .evalStatementError
    ∧ (∀ s : String, PyErr.evalStatementError ≠ .parseError s)
    ∧ inTaxonomy .evalStatementError = false
    ∧ parseColumn (.list ⟨.int 0, .float .posInf, true, true⟩)
      [.vStr (.ident "os")] "c" = .error (.parseError "c")
    ∧ parseColumn (.list ⟨.int 0, .float .posInf, true, true⟩)
      [.vStr (.listLit [.intLit 1, .intLit 2, .intLit 3])] "c" =
      .ok [.vList [.vInt 1, .vInt 2, .vInt 3]] :=
  ⟨rfl, fun _ h => PyErr.noConfusion h, rfl, rfl, rfl⟩

/-- C3 (code bug): `_validate_positive_int` tests
`not isinstance(arg, int) and arg < 0`, so a negative int short-circuits
the conjunction and no error is raised, contradicting the function's own
docstring.  The String and List constructors consequently accept negative
length and item bounds without any configuration error. -/
theorem negative_length_bounds_accepted :
    validate_positive_int (.vInt (-1)) "min_length" = .ok ()
    ∧ StringField.init (.vInt (-1)) (.vInt 3) (.vBool true) true =
      .ok ⟨.int (-1), .int 3, true, true⟩
    ∧ ItemsField.init (.vInt (-2)) (.vFloat .posInf) (.vBool true) true =
      .ok ⟨.int (-2), .float .posInf, true, true⟩ :=
  ⟨rfl, rfl, rfl⟩

/-- C4 (code bug): the Integer constructor's default bounds are the numpy
floats -inf and +inf, and `_validate_int` rejects any float, so calling the
constructor with lower and upper omitted raises the configuration error
"Argument lower must be int" instead of succeeding, contradicting the
class's own documented defaults.  (The Float constructor's float defaults
do pass its own validator.) -/
theorem integer_default_construction_raises :
    IntegerField.init (.vFloat .negInf) (.vFloat .posInf) (.vBool true) true false =
      .error (.configError "lower" "int")
    ∧ FloatField.init (.vFloat .negInf) (.vFloat .posInf) (.vBool true) true false =
      .ok ⟨.float .negInf, .float .posInf, true, true, false⟩ :=
  ⟨rfl, rfl⟩

/-- C5 (confirmed): in `_check_definition` the integer-mismatch TypeError
for an Integer field is raised exactly when `allow_float` is true and not
every cell is an instance of int, and symmetrically the float-mismatch
TypeError for a Float field is raised exactly when `allow_int` is true and
not every cell is an instance of float. -/
theorem typecheck_gated_by_allow_flags (g : IntegerField) (g' : FloatField)
    (c : List PyVal) (name : String) :
    (checkDefinition (.integer g) c name = .error (.typeErrorNotAll name "integer")
      ↔ g.allow_float = true ∧ ¬ c.all (isinst · .int) = true)
    ∧ (checkDefinition (.float g') c name = .error (.typeErrorNotAll name "float")
      ↔ g'.allow_int = true ∧ ¬ c.all (isinst · .float) = true) := by
  constructor
  · cases c with
    | nil => simp [checkDefinition, vec_isinstance, Bind.bind, Except.bind]
    | cons v vs =>
      simp only [checkDefinition, vec_isinstance, List.isEmpty_cons, Bind.bind,
        Except.bind, if_neg Bool.false_ne_true]
      by_cases h : ¬ (v :: vs).all (isinst · .int) = true ∧ g.allow_float = true
      · simp [if_pos h, h.1, h.2]
      · rw [if_neg h]
        simp only [not_and] at h
        constructor
        · intro hcontra
          exact absurd hcontra (by simp)
        · rintro ⟨h1, h2⟩
          exact absurd (h h2 h1) (by simp)
  · cases c with
    | nil => simp [checkDefinition, vec_isinstance, Bind.bind, Except.bind]
    | cons v vs =>
      simp only [checkDefinition, vec_isinstance, List.isEmpty_cons, Bind.bind,
        Except.bind, if_neg Bool.false_ne_true]
      by_cases h : ¬ (v :: vs).all (isinst · .float) = true ∧ g'.allow_int = true
      · simp [if_pos h, h.1, h.2]
      · rw [if_neg h]
        simp only [not_and] at h
        constructor
        · intro hcontra
          exact absurd hcontra (by simp)
        · rintro ⟨h1, h2⟩
          exact absurd (h h2 h1) (by simp)

/-- C7 (confirmed): for a non-nullable field, `_check_null` fails with the
null-value error naming the column exactly when some cell is null, and
succeeds exactly when every cell is non-null; it returns nothing and never
modifies the column. -/
theorem null_check_iff_null_present (field : Field) (c : List PyVal)
    (name : String) (h : fieldNullable field = false) :
    (checkNull field c name = .error (.nullValueError name)
      ↔ ∃ v ∈ c, isNull v = true)
    ∧ (checkNull field c name = .ok () ↔ ∀ v ∈ c, isNull v = false) := by
  unfold checkNull
  rw [h]
  by_cases hp : 0 < c.countP isNull
  · rw [if_pos (by simpa using hp)]
    constructor
    · simpa using List.countP_pos_iff.mp hp
    · constructor
      · intro hcontra
        exact absurd hcontra (by simp)
      · intro hall
        rw [List.countP_eq_zero.mpr (by simpa using hall)] at hp
        exact absurd hp (by simp)
  · rw [if_neg (by simpa using hp)]
    have h0 : c.countP isNull = 0 := Nat.eq_zero_of_not_pos hp
    constructor
    · constructor
      · intro hcontra
        exact absurd hcontra (by simp)
      · rintro ⟨v, hv, hnull⟩
        exact absurd (List.countP_pos_iff.mpr ⟨v, hv, hnull⟩) hp
    · simpa using List.countP_eq_zero.mp h0

/-- Witness for C7 at a concrete non-nullable Integer field: a column with
one None cell fails with the null-value error, and an all-non-null column
passes. -/
theorem null_check_witness :
    checkNull (.integer ⟨.int 0, .int 10, false, true, false⟩) [.vNone, .vInt 1] "c" =
      .error (.nullValueError "c")
    ∧ checkNull (.integer ⟨.int 0, .int 10, false, true, false⟩) [.vInt 1] "c" = .ok () := by
  constructor
  · exact (null_check_iff_null_present (.integer ⟨.int 0, .int 10, false, true, false⟩)
      [.vNone, .vInt 1] "c" rfl).1.mpr ⟨.vNone, by simp, rfl⟩
  · exact (null_check_iff_null_present (.integer ⟨.int 0, .int 10, false, true, false⟩)
      [.vInt 1] "c" rfl).2.mpr (by simp [isNull])

end ValidFrame

namespace ValidFrame

/-- C10 (confirmed): the three np.vectorize-based predicates raise the
size-0 ValueError on an empty column, and for every field type whose
pipeline reaches a type check, validating an empty column fails with that
error, which lies outside the documented taxonomy. -/
theorem empty_column_crashes_vectorize (field : Field) (name : String)
    (h : reachesTypeCheck field = true) :
    vec_isinstance ([] : List PyVal) .int = .error .vectorizeError
    ∧ vec_isnumeric ([] : List PyVal) = .error .vectorizeError
    ∧ vec_len ([] : List PyVal) = .error .vectorizeError
    ∧ validateOne [(name, [])] field name = .error .vectorizeError
    ∧ inTaxonomy .vectorizeError = false := by
  refine ⟨rfl, rfl, rfl, ?_, rfl⟩
  have hloc : frameLoc [(name, [])] name = .ok [] := by
    simp [frameLoc]
  cases field <;> simp_all [reachesTypeCheck, validateOne, hloc, checkNull,
    parseColumn, parseBody, mapCells, checkDefinition, vec_isinstance,
    Bind.bind, Except.bind, fieldNullable]

/-- Witness for C10 at a Boolean field and the column name "c". -/
theorem empty_column_crashes_vectorize_witness :
    validateOne [("c", [])] (.boolean ⟨true, true⟩) "c" = .error .vectorizeError :=
  (empty_column_crashes_vectorize (.boolean ⟨true, true⟩) "c" rfl).2.2.2.1

end ValidFrame

namespace ValidFrame

/-! ## Order properties of the numeric comparison -/

/-- A true comparison involves no NaN. -/
theorem numLe_not_nan {a b : PyNum} (h : numLe a b = true) :
    numIsNan a = false ∧ numIsNan b = false := by
  unfold numLe at h
  by_cases hc : numIsNan a = true ∨ numIsNan b = true
  · rw [if_pos hc] at h
    exact absurd h (by simp)
  · push_neg at hc
    simp only [Bool.not_eq_true] at hc
    exact hc

/-- The comparison is reflexive away from NaN. -/
theorem numLe_refl (a : PyNum) (h : numIsNan a = false) : numLe a a = true := by
  unfold numLe
  rw [if_neg (by simp [h]), decide_eq_true_iff]
  exact Or.inr ⟨rfl, le_rfl⟩

/-- The comparison is transitive. -/
theorem numLe_trans {a b c : PyNum} (hab : numLe a b = true)
    (hbc : numLe b c = true) : numLe a c = true := by
  obtain ⟨ha, hb⟩ := numLe_not_nan hab
  obtain ⟨_, hc⟩ := numLe_not_nan hbc
  unfold numLe at hab hbc ⊢
  rw [if_neg (by simp [ha, hb]), decide_eq_true_iff] at hab
  rw [if_neg (by simp [hb, hc]), decide_eq_true_iff] at hbc
  rw [if_neg (by simp [ha, hc]), decide_eq_true_iff]
  rcases hab with h1 | ⟨h1, h1'⟩ <;> rcases hbc with h2 | ⟨h2, h2'⟩
  · exact Or.inl (h1.trans h2)
  · exact Or.inl (h2 ▸ h1)
  · exact Or.inl (h1 ▸ h2)
  · exact Or.inr ⟨h1.trans h2, h1'.trans h2'⟩

/-- The comparison is total away from NaN. -/
theorem numLe_total (a b : PyNum) (ha : numIsNan a = false)
    (hb : numIsNan b = false) : numLe a b = true ∨ numLe b a = true := by
  unfold numLe
  rw [if_neg (by simp [ha, hb]), if_neg (by simp [ha, hb]),
    decide_eq_true_iff, decide_eq_true_iff]
  rcases lt_trichotomy (numKey a).1 (numKey b).1 with h | h | h
  · exact Or.inl (Or.inl h)
  · rcases le_total (numKey a).2 (numKey b).2 with h' | h'
    · exact Or.inl (Or.inr ⟨h, h'⟩)
    · exact Or.inr (Or.inr ⟨h.symm, h'⟩)
  · exact Or.inr (Or.inl h)

/-! ## Properties of the pandas min and max folds -/

/-- The fold minimum is the accumulator or one of the elements. -/
theorem foldMin_mem (L : List PyNum) :
    ∀ m, foldMin m L = m ∨ foldMin m L ∈ L := by
  induction L with
  | nil => intro m; exact Or.inl rfl
  | cons x xs ih =>
    intro m
    rw [foldMin]
    by_cases hc : numLe m x = true
    · rw [if_pos hc]
      rcases ih m with h | h
      · exact Or.inl h
      · exact Or.inr (List.mem_cons_of_mem x h)
    · rw [if_neg hc]
      rcases ih x with h | h
      · rw [h]
        exact Or.inr (List.mem_cons_self x xs)
      · exact Or.inr (List.mem_cons_of_mem x h)

/-- The fold maximum is the accumulator or one of the elements. -/
theorem foldMax_mem (L : List PyNum) :
    ∀ m, foldMax m L = m ∨ foldMax m L ∈ L := by
  induction L with
  | nil => intro m; exact Or.inl rfl
  | cons x xs ih =>
    intro m
    rw [foldMax]
    by_cases hc : numLe x m = true
    · rw [if_pos hc]
      rcases ih m with h | h
      · exact Or.inl h
      · exact Or.inr (List.mem_cons_of_mem x h)
    · rw [if_neg hc]
      rcases ih x with h | h
      · rw [h]
        exact Or.inr (List.mem_cons_self x xs)
      · exact Or.inr (List.mem_cons_of_mem x h)

/-- Away from NaN, the fold minimum is a lower bound of the accumulator and
of every element. -/
theorem foldMin_le (L : List PyNum) :
    ∀ m, (∀ x ∈ L, numIsNan x = false) → numIsNan m = false →
      numLe (foldMin m L) m = true ∧ ∀ x ∈ L, numLe (foldMin m L) x = true := by
  induction L with
  | nil =>
    intro m _ hm
    exact ⟨numLe_refl m hm, by simp⟩
  | cons x xs ih =>
    intro m hL hm
    have hx : numIsNan x = false := hL x (List.mem_cons_self x xs)
    have hxs : ∀ y ∈ xs, numIsNan y = false :=
      fun y hy => hL y (List.mem_cons_of_mem x hy)
    rw [foldMin]
    by_cases hc : numLe m x = true
    · rw [if_pos hc]
      obtain ⟨h1, h2⟩ := ih m hxs hm
      refine ⟨h1, ?_⟩
      intro y hy
      rcases List.mem_cons.mp hy with rfl | hy'
      · exact numLe_trans h1 hc
      · exact h2 y hy'
    · rw [if_neg hc]
      have hxm : numLe x m = true := by
        rcases numLe_total m x hm hx with h | h
        · exact absurd h hc
        · exact h
      obtain ⟨h1, h2⟩ := ih x hxs hx
      refine ⟨numLe_trans h1 hxm, ?_⟩
      intro y hy
      rcases List.mem_cons.mp hy with rfl | hy'
      · exact h1
      · exact h2 y hy'

/-- Away from NaN, the fold maximum is an upper bound of the accumulator
and of every element. -/
theorem le_foldMax (L : List PyNum) :
    ∀ m, (∀ x ∈ L, numIsNan x = false) → numIsNan m = false →
      numLe m (foldMax m L) = true ∧ ∀ x ∈ L, numLe x (foldMax m L) = true := by
  induction L with
  | nil =>
    intro m _ hm
    exact ⟨numLe_refl m hm, by simp⟩
  | cons x xs ih =>
    intro m hL hm
    have hx : numIsNan x = false := hL x (List.mem_cons_self x xs)
    have hxs : ∀ y ∈ xs, numIsNan y = false :=
      fun y hy => hL y (List.mem_cons_of_mem x hy)
    rw [foldMax]
    by_cases hc : numLe x m = true
    · rw [if_pos hc]
      obtain ⟨h1, h2⟩ := ih m hxs hm
      refine ⟨h1, ?_⟩
      intro y hy
      rcases List.mem_cons.mp hy with rfl | hy'
      · exact numLe_trans hc h1
      · exact h2 y hy'
    · rw [if_neg hc]
      have hmx : numLe m x = true := by
        rcases numLe_total m x hm hx with h | h
        · exact h
        · exact absurd h hc
      obtain ⟨h1, h2⟩ := ih x hxs hx
      refine ⟨numLe_trans hmx h1, ?_⟩
      intro y hy
      rcases List.mem_cons.mp hy with rfl | hy'
      · exact h1
      · exact h2 y hy'

/-- A common lower bound of the accumulator and of every element bounds the
fold minimum. -/
theorem le_foldMin (L : List PyNum) :
    ∀ m lo, numLe lo m = true → (∀ x ∈ L, numLe lo x = true) →
      numLe lo (foldMin m L) = true := by
  induction L with
  | nil => intro m lo h _; exact h
  | cons x xs ih =>
    intro m lo hm hall
    rw [foldMin]
    by_cases hc : numLe m x = true
    · rw [if_pos hc]
      exact ih m lo hm (fun y hy => hall y (List.mem_cons_of_mem x hy))
    · rw [if_neg hc]
      exact ih x lo (hall x (List.mem_cons_self x xs))
        (fun y hy => hall y (List.mem_cons_of_mem x hy))

/-- A common upper bound of the accumulator and of every element bounds the
fold maximum. -/
theorem foldMax_le (L : List PyNum) :
    ∀ m hi, numLe m hi = true → (∀ x ∈ L, numLe x hi = true) →
      numLe (foldMax m L) hi = true := by
  induction L with
  | nil => intro m hi h _; exact h
  | cons x xs ih =>
    intro m hi hm hall
    rw [foldMax]
    by_cases hc : numLe x m = true
    · rw [if_pos hc]
      exact ih m hi hm (fun y hy => hall y (List.mem_cons_of_mem x hy))
    · rw [if_neg hc]
      exact ih x hi (hall x (List.mem_cons_self x xs))
        (fun y hy => hall y (List.mem_cons_of_mem x hy))

/-- On a NaN-free non-empty column the pandas minimum reduces to the fold,
independently of the skipna flag. -/
theorem colMin_eq (v : PyVal) (vs : List PyVal) (sk : Bool)
    (hnan : ∀ w ∈ v :: vs, numIsNan (toNum w) = false) :
    colMin (v :: vs) sk = foldMin (toNum v) (vs.map toNum) := by
  have hall : ∀ x ∈ toNum v :: vs.map toNum, numIsNan x = false := by
    intro x hx
    rcases List.mem_cons.mp hx with rfl | hx'
    · exact hnan v (List.mem_cons_self v vs)
    · obtain ⟨w, hw, rfl⟩ := List.mem_map.mp hx'
      exact hnan w (List.mem_cons_of_mem v hw)
  have hfilter : (toNum v :: vs.map toNum).filter (fun x => !(numIsNan x)) =
      toNum v :: vs.map toNum :=
    List.filter_eq_self.mpr (fun x hx => by simp [hall x hx])
  have hany : (toNum v :: vs.map toNum).any numIsNan = false :=
    List.any_eq_false.mpr (fun x hx => by simp [hall x hx])
  unfold colMin
  simp only [List.map_cons]
  cases sk
  · simp [hany]
  · simp [hfilter, hany]

/-- On a NaN-free non-empty column the pandas maximum reduces to the fold,
independently of the skipna flag. -/
theorem colMax_eq (v : PyVal) (vs : List PyVal) (sk : Bool)
    (hnan : ∀ w ∈ v :: vs, numIsNan (toNum w) = false) :
    colMax (v :: vs) sk = foldMax (toNum v) (vs.map toNum) := by
  have hall : ∀ x ∈ toNum v :: vs.map toNum, numIsNan x = false := by
    intro x hx
    rcases List.mem_cons.mp hx with rfl | hx'
    · exact hnan v (List.mem_cons_self v vs)
    · obtain ⟨w, hw, rfl⟩ := List.mem_map.mp hx'
      exact hnan w (List.mem_cons_of_mem v hw)
  have hfilter : (toNum v :: vs.map toNum).filter (fun x => !(numIsNan x)) =
      toNum v :: vs.map toNum :=
    List.filter_eq_self.mpr (fun x hx => by simp [hall x hx])
  have hany : (toNum v :: vs.map toNum).any numIsNan = false :=
    List.any_eq_false.mpr (fun x hx => by simp [hall x hx])
  unfold colMax
  simp only [List.map_cons]
  cases sk
  · simp [hany]
  · simp [hfilter, hany]

end ValidFrame

namespace ValidFrame

/-- Full behaviour of the shared numeric body of `_check_range` on a
non-empty column: the TypeError fires exactly off the numeric guard, and on
a NaN-free numeric column success is equivalent to every cell lying within
the bounds, the reported extreme values being the column minimum and
maximum. -/
theorem checkRangeNumeric_spec (lo hi : PyNum) (sk : Bool) (c : List PyVal)
    (name : String) (hne : c ≠ []) :
    (¬ c.all (fun v => isinst v .int || isinst v .float) = true →
      checkRangeNumeric lo hi sk c name = .error (.typeErrorNotAll name "numeric"))
    ∧ (c.all (fun v => isinst v .int || isinst v .float) = true →
       (∀ v ∈ c, numIsNan (toNum v) = false) →
       (checkRangeNumeric lo hi sk c name = .ok ()
          ↔ ∀ v ∈ c, numLe lo (toNum v) = true ∧ numLe (toNum v) hi = true)
       ∧ (numLe lo (colMin c sk) = false →
          checkRangeNumeric lo hi sk c name =
            .error (.outOfBoundRange name .lower lo (colMin c sk)))
       ∧ (numLe lo (colMin c sk) = true → numLe (colMax c sk) hi = false →
          checkRangeNumeric lo hi sk c name =
            .error (.outOfBoundRange name .upper hi (colMax c sk)))
       ∧ (∃ w ∈ c, colMin c sk = toNum w) ∧ (∃ w ∈ c, colMax c sk = toNum w)
       ∧ (∀ w ∈ c, numLe (colMin c sk) (toNum w) = true)
       ∧ (∀ w ∈ c, numLe (toNum w) (colMax c sk) = true)) := by
  cases c with
  | nil => exact absurd rfl hne
  | cons v vs =>
    have hv : vec_isnumeric (v :: vs) =
        .ok ((v :: vs).all fun w => isinst w .int || isinst w .float) := by
      simp [vec_isnumeric]
    constructor
    · intro hnot
      unfold checkRangeNumeric
      rw [hv]
      simp only [Bind.bind, Except.bind]
      rw [if_pos hnot]
    · intro hall hnan
      have hred : checkRangeNumeric lo hi sk (v :: vs) name =
          (if ¬ numLe lo (colMin (v :: vs) sk) = true then
            .error (.outOfBoundRange name .lower lo (colMin (v :: vs) sk))
          else if ¬ numLe (colMax (v :: vs) sk) hi = true then
            .error (.outOfBoundRange name .upper hi (colMax (v :: vs) sk))
          else .ok ()) := by
        unfold checkRangeNumeric
        rw [hv]
        simp only [Bind.bind, Except.bind]
        rw [hall]
        simp
      have hanan : numIsNan (toNum v) = false := hnan v (List.mem_cons_self v vs)
      have hLnan : ∀ x ∈ vs.map toNum, numIsNan x = false := by
        intro x hx
        obtain ⟨w, hw, rfl⟩ := List.mem_map.mp hx
        exact hnan w (List.mem_cons_of_mem v hw)
      have hcmin := colMin_eq v vs sk hnan
      have hcmax := colMax_eq v vs sk hnan
      have hminle : ∀ w ∈ v :: vs, numLe (colMin (v :: vs) sk) (toNum w) = true := by
        obtain ⟨h1, h2⟩ := foldMin_le (vs.map toNum) (toNum v) hLnan hanan
        intro w hw
        rw [hcmin]
        rcases List.mem_cons.mp hw with rfl | hw'
        · exact h1
        · exact h2 (toNum w) (List.mem_map_of_mem toNum hw')
      have hmaxge : ∀ w ∈ v :: vs, numLe (toNum w) (colMax (v :: vs) sk) = true := by
        obtain ⟨h1, h2⟩ := le_foldMax (vs.map toNum) (toNum v) hLnan hanan
        intro w hw
        rw [hcmax]
        rcases List.mem_cons.mp hw with rfl | hw'
        · exact h1
        · exact h2 (toNum w) (List.mem_map_of_mem toNum hw')
      have hminmem : ∃ w ∈ v :: vs, colMin (v :: vs) sk = toNum w := by
        rw [hcmin]
        rcases foldMin_mem (vs.map toNum) (toNum v) with h | h
        · exact ⟨v, List.mem_cons_self v vs, h⟩
        · obtain ⟨w, hw, hww⟩ := List.mem_map.mp h
          exact ⟨w, List.mem_cons_of_mem v hw, hww.symm⟩
      have hmaxmem : ∃ w ∈ v :: vs, colMax (v :: vs) sk = toNum w := by
        rw [hcmax]
        rcases foldMax_mem (vs.map toNum) (toNum v) with h | h
        · exact ⟨v, List.mem_cons_self v vs, h⟩
        · obtain ⟨w, hw, hww⟩ := List.mem_map.mp h
          exact ⟨w, List.mem_cons_of_mem v hw, hww.symm⟩
      refine ⟨?_, ?_, ?_, hminmem, hmaxmem, hminle, hmaxge⟩
      · constructor
        · intro hok
          by_cases h1 : numLe lo (colMin (v :: vs) sk) = true
          · by_cases h2 : numLe (colMax (v :: vs) sk) hi = true
            · intro w hw
              exact ⟨numLe_trans h1 (hminle w hw), numLe_trans (hmaxge w hw) h2⟩
            · rw [hred, if_neg (by simp [h1]), if_pos (by simp [h2])] at hok
              exact absurd hok (by simp)
          · rw [hred, if_pos (by simp [h1])] at hok
            exact absurd hok (by simp)
        · intro hbounds
          have h1 : numLe lo (colMin (v :: vs) sk) = true := by
            rw [hcmin]
            refine le_foldMin (vs.map toNum) (toNum v) lo
              (hbounds v (List.mem_cons_self v vs)).1 ?_
            intro x hx
            obtain ⟨w, hw, rfl⟩ := List.mem_map.mp hx
            exact (hbounds w (List.mem_cons_of_mem v hw)).1
          have h2 : numLe (colMax (v :: vs) sk) hi = true := by
            rw [hcmax]
            refine foldMax_le (vs.map toNum) (toNum v) hi
              (hbounds v (List.mem_cons_self v vs)).2 ?_
            intro x hx
            obtain ⟨w, hw, rfl⟩ := List.mem_map.mp hx
            exact (hbounds w (List.mem_cons_of_mem v hw)).2
          rw [hred, if_neg (by simp [h1]), if_neg (by simp [h2])]
      · intro hfalse
        rw [hred, if_pos (by simp [hfalse])]
      · intro h1 h2
        rw [hred, if_neg (by simp [h1]), if_pos (by simp [h2])]

end ValidFrame

namespace ValidFrame

/-- C6 (confirmed): for every Integer or Float field, `_check_range` raises
the numeric TypeError exactly when not every cell is numeric; on a NaN-free
numeric column it succeeds exactly when every cell lies between lower and
upper, it reports a violated lower bound with the column minimum and a
violated upper bound with the column maximum (both honouring skip_na, and
both genuine extreme cell values of the column). -/
theorem range_check_min_max (field : Field) (lo hi : PyNum) (sk : Bool)
    (c : List PyVal) (name : String)
    (hf : numFieldBounds field = some (lo, hi, sk)) (hne : c ≠ []) :
    (¬ c.all (fun v => isinst v .int || isinst v .float) = true →
      checkRange field c name = .error (.typeErrorNotAll name "numeric"))
    ∧ (c.all (fun v => isinst v .int || isinst v .float) = true →
       (∀ v ∈ c, numIsNan (toNum v) = false) →
       (checkRange field c name = .ok ()
          ↔ ∀ v ∈ c, numLe lo (toNum v) = true ∧ numLe (toNum v) hi = true)
       ∧ (numLe lo (colMin c sk) = false →
          checkRange field c name =
            .error (.outOfBoundRange name .lower lo (colMin c sk)))
       ∧ (numLe lo (colMin c sk) = true → numLe (colMax c sk) hi = false →
          checkRange field c name =
            .error (.outOfBoundRange name .upper hi (colMax c sk)))
       ∧ (∃ w ∈ c, colMin c sk = toNum w) ∧ (∃ w ∈ c, colMax c sk = toNum w)
       ∧ (∀ w ∈ c, numLe (colMin c sk) (toNum w) = true)
       ∧ (∀ w ∈ c, numLe (toNum w) (colMax c sk) = true)) := by
  have hcr : checkRange field c name = checkRangeNumeric lo hi sk c name := by
    cases field with
    | integer g =>
      simp only [numFieldBounds, Option.some.injEq, Prod.mk.injEq] at hf
      obtain ⟨h1, h2, h3⟩ := hf
      rw [← h1, ← h2, ← h3]
      rfl
    | float g =>
      simp only [numFieldBounds, Option.some.injEq, Prod.mk.injEq] at hf
      obtain ⟨h1, h2, h3⟩ := hf
      rw [← h1, ← h2, ← h3]
      rfl
    | boolean g => simp [numFieldBounds] at hf
    | datetime g => simp [numFieldBounds] at hf
    | string g => simp [numFieldBounds] at hf
    | list g => simp [numFieldBounds] at hf
    | tuple g => simp [numFieldBounds] at hf
    | set g => simp [numFieldBounds] at hf
    | dictionary g => simp [numFieldBounds] at hf
    | object g => simp [numFieldBounds] at hf
  rw [hcr]
  exact checkRangeNumeric_spec lo hi sk c name hne

/-- Witness for C6 at the claim's own example: for Integer with lower 0 and
upper 10, the column [0, 5, 10] passes the range check and the column
[0, 5, 11] fails it reporting the upper bound 10 against the maximum 11. -/
theorem range_check_min_max_witness :
    checkRange (.integer ⟨.int 0, .int 10, true, true, false⟩)
      [.vInt 0, .vInt 5, .vInt 10] "c" = .ok ()
    ∧ checkRange (.integer ⟨.int 0, .int 10, true, true, false⟩)
      [.vInt 0, .vInt 5, .vInt 11] "c" =
      .error (.outOfBoundRange "c" .upper (.int 10) (.int 11)) := by
  constructor
  · exact (((range_check_min_max (.integer ⟨.int 0, .int 10, true, true, false⟩)
      (.int 0) (.int 10) true [.vInt 0, .vInt 5, .vInt 10] "c" rfl
      (by simp)).2 (by decide) (by decide)).1).mpr (by decide)
  · have h := ((range_check_min_max (.integer ⟨.int 0, .int 10, true, true, false⟩)
      (.int 0) (.int 10) true [.vInt 0, .vInt 5, .vInt 11] "c" rfl
      (by simp)).2 (by decide) (by decide)).2.2.1 (by decide) (by decide)
    exact h

end ValidFrame

namespace ValidFrame

/-! ## Properties of the worker-pool model -/

/-- Looking up a submitted index in the completion log finds that index's
own task result, whatever the completion order. -/
theorem runSchedule_find? (tasks : List α) :
    ∀ (sched : List ℕ) (i : ℕ) (t : α), i ∈ sched → tasks[i]? = some t →
      (runSchedule sched tasks).find? (fun p => p.1 == i) = some (i, t) := by
  intro sched
  induction sched with
  | nil =>
    intro i t hi _
    exact absurd hi (List.not_mem_nil i)
  | cons j js ih =>
    intro i t hi ht
    rw [runSchedule, List.filterMap_cons]
    cases hj : tasks[j]? with
    | none =>
      rcases List.mem_cons.mp hi with rfl | hi'
      · rw [hj] at ht
        exact absurd ht (by simp)
      · exact ih i t hi' ht
    | some tj =>
      simp only [Option.map_some']
      by_cases hij : j = i
      · subst hij
        rw [hj] at ht
        cases ht
        exact List.find?_cons_of_pos _ (by simp)
      · rw [List.find?_cons_of_neg _ (by simp [hij])]
        rcases List.mem_cons.mp hi with rfl | hi'
        · exact absurd rfl hij
        · exact ih i t hi' ht

/-- Reading every index of a list back through the optional indexing
operation reproduces the list. -/
theorem range_filterMap_getElem (tasks : List α) :
    (List.range tasks.length).filterMap (fun i => tasks[i]?) = tasks := by
  induction tasks with
  | nil => simp
  | cons x xs ih =>
    rw [List.length_cons, List.range_succ_eq_map, List.filterMap_cons]
    simp only [List.getElem?_cons_zero, Option.map_some']
    rw [List.filterMap_map]
    have hcongr : ∀ i ∈ List.range xs.length,
        ((fun i => (x :: xs)[i]?) ∘ (· + 1)) i = (fun i => xs[i]?) i := by
      intro i _
      simp [List.getElem?_cons_succ]
    rw [List.filterMap_congr hcongr, ih]

/-- Running pure tasks under any completion schedule that covers every
submitted index once and gathering by submission index reproduces the
submission-ordered results. -/
theorem parallelCompute_eq (tasks : List α) (sched : List ℕ)
    (h : sched.Perm (List.range tasks.length)) :
    parallelCompute sched tasks = tasks := by
  unfold parallelCompute gatherInOrder
  have hstep : ∀ i ∈ List.range tasks.length,
      ((runSchedule sched tasks).find? (fun p => p.1 == i)).map Prod.snd =
        tasks[i]? := by
    intro i hi
    have hilt : i < tasks.length := List.mem_range.mp hi
    have ht : tasks[i]? = some tasks[i] := List.getElem?_eq_getElem hilt
    rw [runSchedule_find? tasks sched i tasks[i] (h.mem_iff.mpr hi) ht, ht]
    rfl
  rw [List.filterMap_congr hstep]
  exact range_filterMap_getElem tasks

/-- Joining succeeds on all-successful results, with one output per task. -/
theorem collectResults_exists_ok :
    ∀ (rs : List (Except PyErr α)), (∀ r ∈ rs, exOk r = true) →
      ∃ xs, collectResults rs = .ok xs ∧ xs.length = rs.length := by
  intro rs
  induction rs with
  | nil =>
    intro _
    exact ⟨[], rfl, rfl⟩
  | cons r rs ih =>
    intro h
    obtain ⟨xs, hxs, hlen⟩ := ih (fun r' hr' => h r' (List.mem_cons_of_mem r hr'))
    cases r with
    | error e =>
      have := h (.error e) (List.mem_cons_self _ _)
      exact absurd this (by simp [exOk])
    | ok a =>
      refine ⟨a :: xs, ?_, by simp [hlen]⟩
      rw [collectResults, hxs]
      rfl

/-- A successful join determines every task outcome pointwise. -/
theorem collectResults_forall₂ :
    ∀ (rs : List (Except PyErr α)) (xs : List α), collectResults rs = .ok xs →
      List.Forall₂ (fun r a => r = .ok a) rs xs := by
  intro rs
  induction rs with
  | nil =>
    intro xs h
    rw [collectResults] at h
    cases h
    exact List.Forall₂.nil
  | cons r rs ih =>
    intro xs h
    cases r with
    | error e =>
      rw [collectResults] at h
      exact absurd h (by simp)
    | ok a =>
      rw [collectResults] at h
      cases hcr : collectResults rs with
      | error e =>
        rw [hcr] at h
        exact absurd h (by simp [Except.map])
      | ok ys =>
        rw [hcr] at h
        simp only [Except.map] at h
        cases h
        exact List.Forall₂.cons rfl (ih ys hcr)

/-- Pointwise-successful tasks join to exactly those outputs. -/
theorem collectResults_of_forall₂ (f : β → Except PyErr α) :
    ∀ {l : List β} {xs : List α},
      List.Forall₂ (fun b a => f b = .ok a) l xs →
      collectResults (l.map f) = .ok xs := by
  intro l xs h
  induction h with
  | nil => rfl
  | cons h1 _ ih =>
    rw [List.map_cons, h1]
    show (collectResults _).map _ = _
    rw [ih]
    rfl

end ValidFrame

namespace ValidFrame

/-- C9 (confirmed): for every parallelism degree of at least one and every
completion order of the workers (any permutation of the submitted column
indices), when every column validates successfully the assembled table's
column order is exactly the schema's declared field order. -/
theorem validate_preserves_schema_order (m : Model) (sched : List ℕ)
    (hjobs : 1 ≤ m.n_jobs)
    (hperm : sched.Perm (List.range m.field_type.length))
    (hok : ∀ p ∈ m.field_type, exOk (validateOne m.frame p.2 p.1) = true) :
    ∃ t, validate m sched = .ok t ∧ t.map Prod.fst = m.field_type.map Prod.fst := by
  unfold validate
  have hlen : (m.field_type.map fun p => validateOne m.frame p.2 p.1).length =
      m.field_type.length := List.length_map _ _
  have hpc : parallelCompute sched (m.field_type.map fun p => validateOne m.frame p.2 p.1) =
      m.field_type.map fun p => validateOne m.frame p.2 p.1 :=
    parallelCompute_eq _ sched (by rw [hlen]; exact hperm)
  rw [hpc]
  have hallok : ∀ r ∈ m.field_type.map fun p => validateOne m.frame p.2 p.1,
      exOk r = true := by
    intro r hr
    obtain ⟨p, hp, rfl⟩ := List.mem_map.mp hr
    exact hok p hp
  obtain ⟨cols, hcols, hclen⟩ := collectResults_exists_ok _ hallok
  rw [hcols]
  refine ⟨_, rfl, ?_⟩
  refine List.map_fst_zip _ _ ?_
  rw [hclen, hlen, List.length_map]

/-- Witness for C9: a two-column schema validated under the reversed
completion order still assembles its columns in declared order. -/
theorem validate_preserves_schema_order_witness :
    ∃ t, validate
        { frame := [("a", [PyVal.vInt 1]), ("b", [PyVal.vInt 2])],
          field_type := [("a", Field.object ⟨true, true⟩),
            ("b", Field.object ⟨true, true⟩)],
          n_jobs := 2 } [1, 0] = .ok t
      ∧ t.map Prod.fst =
        ([("a", Field.object ⟨true, true⟩),
          ("b", Field.object ⟨true, true⟩)] : List (String × Field)).map Prod.fst :=
  validate_preserves_schema_order
    { frame := [("a", [PyVal.vInt 1]), ("b", [PyVal.vInt 2])],
      field_type := [("a", Field.object ⟨true, true⟩),
        ("b", Field.object ⟨true, true⟩)],
      n_jobs := 2 } [1, 0] (by norm_num) (by decide) (by decide)

end ValidFrame

namespace ValidFrame

/-! ## Idempotence machinery -/

/-- Bind on a successful step runs the continuation. -/
theorem okBind (a : α) (f : α → Except PyErr β) :
    (Except.ok a : Except PyErr α) >>= f = f a := rfl

/-- Bind on a failed step propagates the exception. -/
theorem errBind (e : PyErr) (f : α → Except PyErr β) :
    (Except.error e : Except PyErr α) >>= f = .error e := rfl

/-- `_try_eval` leaves every non-string cell unchanged. -/
theorem tryEval_id {v : PyVal} (h : isStrCell v = false) : tryEval v = .ok v := by
  cases v <;> simp_all [isStrCell, tryEval]

/-- A successful `pd.to_datetime` cell is a datetime. -/
theorem toDatetimeCell_ok {v w : PyVal} (h : toDatetimeCell v = .ok w) :
    ∃ t, w = .vDatetime t := by
  cases v with
  | vInt n =>
    rw [toDatetimeCell] at h
    cases h
    exact ⟨n, rfl⟩
  | vDatetime t =>
    rw [toDatetimeCell] at h
    cases h
    exact ⟨t, rfl⟩
  | vFloat f => exact absurd h (by simp [toDatetimeCell])
  | vBool b => exact absurd h (by simp [toDatetimeCell])
  | vNone => exact absurd h (by simp [toDatetimeCell])
  | vStr s => exact absurd h (by simp [toDatetimeCell])
  | vList xs => exact absurd h (by simp [toDatetimeCell])
  | vTuple xs => exact absurd h (by simp [toDatetimeCell])
  | vSet xs => exact absurd h (by simp [toDatetimeCell])
  | vDict ks vs => exact absurd h (by simp [toDatetimeCell])

/-- A cell map that fixes every cell of a column fixes the column. -/
theorem mapCells_ok_of_id {f : PyVal → Except PyErr PyVal} :
    ∀ {c : List PyVal}, (∀ v ∈ c, f v = .ok v) → mapCells f c = .ok c := by
  intro c
  induction c with
  | nil => intro _; rfl
  | cons v vs ih =>
    intro h
    unfold mapCells
    rw [h v (List.mem_cons_self v vs), okBind,
      ih (fun w hw => h w (List.mem_cons_of_mem v hw)), okBind]

/-- Every output cell of a successful cell map comes from some input
cell. -/
theorem mapCells_out {f : PyVal → Except PyErr PyVal} :
    ∀ {c out : List PyVal}, mapCells f c = .ok out →
      ∀ w ∈ out, ∃ v ∈ c, f v = .ok w := by
  intro c
  induction c with
  | nil =>
    intro out h w hw
    rw [mapCells] at h
    cases h
    simp at hw
  | cons v vs ih =>
    intro out h w hw
    unfold mapCells at h
    cases hf : f v with
    | error e =>
      rw [hf, errBind] at h
      exact absurd h (by simp)
    | ok w0 =>
      rw [hf, okBind] at h
      cases hm : mapCells f vs with
      | error e =>
        rw [hm, errBind] at h
        exact absurd h (by simp)
      | ok ws =>
        rw [hm, okBind] at h
        cases h
        rcases List.mem_cons.mp hw with rfl | hw'
        · exact ⟨v, List.mem_cons_self v vs, hf⟩
        · obtain ⟨u, hu, hfu⟩ := ih hm w hw'
          exact ⟨u, List.mem_cons_of_mem v hu, hfu⟩

/-- The null check passes when the field is nullable or the column is
null-free. -/
theorem checkNull_ok_of (field : Field) (col : List PyVal) (name : String)
    (h : fieldNullable field = true ∨ ∀ v ∈ col, isNull v = false) :
    checkNull field col name = .ok () := by
  unfold checkNull
  rcases h with h | h
  · rw [if_neg (by simp [h])]
  · rw [if_neg (by simp [List.countP_eq_zero.mpr (by simpa using h)])]

/-- Inversion of a successful `_validate` run into its stages. -/
theorem validateOne_inv {frame : Table} {field : Field} {name : String}
    {col : List PyVal} (h : validateOne frame field name = .ok col) :
    ∃ raw, frameLoc frame name = .ok raw ∧ checkNull field raw name = .ok () ∧
      parseColumn field raw name = .ok col ∧
      checkDefinition field col name = .ok () := by
  unfold validateOne at h
  cases hl : frameLoc frame name with
  | error e =>
    rw [hl, errBind] at h
    exact absurd h (by simp)
  | ok raw =>
    rw [hl, okBind] at h
    cases hn : checkNull field raw name with
    | error e =>
      rw [hn, errBind] at h
      exact absurd h (by simp)
    | ok u =>
      cases u
      rw [hn, okBind] at h
      cases hp : parseColumn field raw name with
      | error e =>
        rw [hp, errBind] at h
        exact absurd h (by simp)
      | ok col' =>
        rw [hp, okBind] at h
        cases hd : checkDefinition field col' name with
        | error e =>
          rw [hd, errBind] at h
          exact absurd h (by simp)
        | ok u' =>
          cases u'
          rw [hd, okBind, okBind] at h
          cases h
          exact ⟨raw, rfl, hn, hp, hd⟩

/-- If a parse succeeded and its output re-parses without change — which
holds whenever no output cell under an eval-parsed field is a string — then
the parse stage is idempotent on that column. -/
theorem parse_idem {field : Field} {raw col : List PyVal} {name : String}
    (h : parseColumn field raw name = .ok col)
    (hstr : isEvalParsed field = true → ∀ v ∈ col, isStrCell v = false) :
    parseColumn field col name = .ok col := by
  have hb : parseBody field raw = .ok col := by
    unfold parseColumn at h
    cases hpb : parseBody field raw with
    | ok c' =>
      rw [hpb] at h
      have h' : (Except.ok c' : Except PyErr (List PyVal)) = .ok col := h
      cases h'
      rfl
    | error e =>
      rw [hpb] at h
      cases e <;> exact Except.noConfusion h
  have hgoal : parseBody field col = .ok col := by
    cases field with
    | integer g => exact mapCells_ok_of_id (fun v hv => tryEval_id (hstr rfl v hv))
    | float g => exact mapCells_ok_of_id (fun v hv => tryEval_id (hstr rfl v hv))
    | boolean g => exact mapCells_ok_of_id (fun v hv => tryEval_id (hstr rfl v hv))
    | list g => exact mapCells_ok_of_id (fun v hv => tryEval_id (hstr rfl v hv))
    | tuple g => exact mapCells_ok_of_id (fun v hv => tryEval_id (hstr rfl v hv))
    | dictionary g => exact mapCells_ok_of_id (fun v hv => tryEval_id (hstr rfl v hv))
    | set g => exact mapCells_ok_of_id (fun v hv => tryEval_id (hstr rfl v hv))
    | datetime g =>
      refine mapCells_ok_of_id ?_
      intro w hw
      obtain ⟨v, _, hfv⟩ := mapCells_out hb w hw
      obtain ⟨t, rfl⟩ := toDatetimeCell_ok hfv
      rfl
    | string g =>
      have hcol : raw.map strCast = col := by
        have h' : (Except.ok (raw.map strCast) : Except PyErr (List PyVal)) = .ok col := hb
        cases h'
        rfl
      show Except.ok (col.map strCast) = .ok col
      have hfix : ∀ v ∈ col, strCast v = v := by
        intro v hv
        rw [← hcol] at hv
        obtain ⟨u, _, rfl⟩ := List.mem_map.mp hv
        rfl
      rw [List.map_congr_left hfix]
      simp
    | object g =>
      have h' : (Except.ok raw : Except PyErr (List PyVal)) = .ok col := hb
      cases h'
      rfl
  unfold parseColumn
  rw [hgoal]

/-- Column lookup in a zip of distinct names with their columns. -/
theorem frameLoc_zip :
    ∀ (names : List String) (cols : List (List PyVal)), names.Nodup →
      ∀ (name : String) (col : List PyVal), (name, col) ∈ names.zip cols →
        frameLoc (names.zip cols) name = .ok col := by
  intro names
  induction names with
  | nil =>
    intro cols _ name col hmem
    simp [List.zip] at hmem
  | cons n ns ih =>
    intro cols hnd name col hmem
    cases cols with
    | nil => simp [List.zip] at hmem
    | cons c cs =>
      rw [List.zip_cons_cons] at hmem
      rcases List.mem_cons.mp hmem with heq | hmem'
      · obtain ⟨h1, h2⟩ := Prod.mk.injEq _ _ _ _ ▸ heq
        subst h1
        subst h2
        unfold frameLoc
        rw [List.zip_cons_cons, List.find?_cons_of_pos _ (by simp)]
      · have hname : name ∈ ns := (List.of_mem_zip hmem').1
        have hne : n ≠ name := fun hx => (List.nodup_cons.mp hnd).1 (hx ▸ hname)
        have htail := ih cs (List.nodup_cons.mp hnd).2 name col hmem'
        unfold frameLoc at htail ⊢
        rw [List.zip_cons_cons, List.find?_cons_of_neg _ (by simp [hne])]
        exact htail

end ValidFrame

namespace ValidFrame

/-- C8 counterexample: validation is not idempotent.  A successfully
validated Integer column may contain a string (eval of the quoted-string
literal text produces one, and the allow_float-gated definition check lets
it through), and revalidating that output fails with ParseError because the
string now evaluates as an unbound identifier. -/
theorem validate_not_idempotent :
    validate
      { frame := [("c", [.vStr (.strLit (.ident "abc"))])],
        field_type := [("c", .integer ⟨.int 0, .int 10, true, true, false⟩)],
        n_jobs := 1 } [0] = .ok [("c", [.vStr (.ident "abc")])]
    ∧ validate
      { frame := [("c", [.vStr (.ident "abc")])],
        field_type := [("c", .integer ⟨.int 0, .int 10, true, true, false⟩)],
        n_jobs := 1 } [0] = .error (.parseError "c") :=
  ⟨rfl, rfl⟩

/-- C8 amended (proved): revalidating a validated table with the same
schema succeeds and returns the identical table provided the coerced output
contains nothing the pipeline transforms or rejects on a second pass: under
every eval-parsed field no coerced cell is a string, and under every
non-nullable field no coerced cell is null (the first parse can manufacture
both, e.g. from quoted-string text or the text None).  The schema's column
names must be distinct, as they are for a Python class dict. -/
theorem validate_idempotent_on_nonstring (m : Model) (sched : List ℕ) (t' : Table)
    (hperm : sched.Perm (List.range m.field_type.length))
    (hnd : (m.field_type.map Prod.fst).Nodup)
    (hv : validate m sched = .ok t')
    (hcells : ∀ p ∈ m.field_type, ∀ col, frameLoc t' p.1 = .ok col →
      ∀ v ∈ col, (fieldNullable p.2 = false → isNull v = false)
        ∧ (isEvalParsed p.2 = true → isStrCell v = false)) :
    validate { m with frame := t' } sched = .ok t' := by
  unfold validate at hv
  have hlen : (m.field_type.map fun p => validateOne m.frame p.2 p.1).length =
      m.field_type.length := List.length_map _ _
  rw [parallelCompute_eq _ sched (by rw [hlen]; exact hperm)] at hv
  cases hcr : collectResults (m.field_type.map fun p => validateOne m.frame p.2 p.1) with
  | error e =>
    rw [hcr] at hv
    exact absurd hv (by simp)
  | ok cols =>
    rw [hcr] at hv
    have ht' : (m.field_type.map Prod.fst).zip cols = t' := by
      have h' : (Except.ok ((m.field_type.map Prod.fst).zip cols) :
          Except PyErr Table) = .ok t' := hv
      cases h'
      rfl
    have hf₂ : List.Forall₂ (fun p col => validateOne m.frame p.2 p.1 = .ok col)
        m.field_type cols :=
      List.forall₂_map_left_iff.mp (collectResults_forall₂ _ _ hcr)
    have hlen2 : m.field_type.length = cols.length := hf₂.length_eq
    have hsecond : List.Forall₂ (fun p col => validateOne t' p.2 p.1 = .ok col)
        m.field_type cols := by
      rw [List.forall₂_iff_zip]
      refine ⟨hlen2, ?_⟩
      intro p col hmem
      have hnmem : (p.1, col) ∈ (m.field_type.map Prod.fst).zip cols := by
        rw [List.zip_map_left]
        exact List.mem_map_of_mem (Prod.map Prod.fst id) hmem
      have hloc : frameLoc t' p.1 = .ok col := by
        rw [← ht']
        exact frameLoc_zip _ cols hnd p.1 col hnmem
      have h1 : validateOne m.frame p.2 p.1 = .ok col :=
        (List.forall₂_iff_zip.mp hf₂).2 hmem
      have hpmem : p ∈ m.field_type := (List.of_mem_zip hmem).1
      have hcond := hcells p hpmem col hloc
      obtain ⟨raw, _, _, hp, hd⟩ := validateOne_inv h1
      have hparse2 : parseColumn p.2 col p.1 = .ok col :=
        parse_idem hp (fun hev v hvmem => (hcond v hvmem).2 hev)
      have hnull2 : checkNull p.2 col p.1 = .ok () := by
        cases hbool : fieldNullable p.2 with
        | false =>
          exact checkNull_ok_of _ _ _ (Or.inr (fun v hv' => (hcond v hv').1 hbool))
        | true => exact checkNull_ok_of _ _ _ (Or.inl hbool)
      unfold validateOne
      rw [hloc, okBind, hnull2, okBind, hparse2, okBind, hd, okBind, okBind]
    unfold validate
    show (match collectResults (parallelCompute sched
        (m.field_type.map fun p => validateOne t' p.2 p.1)) with
      | Except.error e => Except.error e
      | Except.ok cols => Except.ok ((m.field_type.map Prod.fst).zip cols)) = .ok t'
    have hsec' : collectResults (m.field_type.map fun p => validateOne t' p.2 p.1) =
        .ok cols :=
      collectResults_of_forall₂ (fun p : String × Field => validateOne t' p.2 p.1) hsecond
    rw [parallelCompute_eq _ sched (by rw [List.length_map]; exact hperm), hsec']
    show Except.ok ((m.field_type.map Prod.fst).zip cols) = Except.ok t'
    rw [ht']

/-- Witness for C8 amended at a one-column Integer schema whose frame is
already coerced: validation is the identity on it. -/
theorem validate_idempotent_witness :
    validate
      { frame := [("c", [PyVal.vInt 1])],
        field_type := [("c", Field.integer ⟨.int 0, .int 10, true, true, false⟩)],
        n_jobs := 1 } [0] = .ok [("c", [PyVal.vInt 1])] := by
  refine validate_idempotent_on_nonstring
    { frame := [("c", [PyVal.vInt 1])],
      field_type := [("c", Field.integer ⟨.int 0, .int 10, true, true, false⟩)],
      n_jobs := 1 } [0] [("c", [PyVal.vInt 1])] (by decide) (by decide) rfl ?_
  intro p hp col hloc
  have hpe : p = ("c", Field.integer ⟨.int 0, .int 10, true, true, false⟩) := by
    simpa using hp
  subst hpe
  have hcol : col = [PyVal.vInt 1] := by
    have h' : (Except.ok [PyVal.vInt 1] : Except PyErr (List PyVal)) = .ok col := by
      rw [← hloc]
      rfl
    cases h'
    rfl
  subst hcol
  intro v hv
  have hve : v = PyVal.vInt 1 := by simpa using hv
  subst hve
  exact ⟨fun hcontra => absurd hcontra (by simp [fieldNullable]), fun _ => rfl⟩

end ValidFrame
